import Mathlib

/-! Shallow embedding of `src/jni/arduboy_avr.c` (Arduboy emulator bridge for
Android): the display decoder (`update_lumamap`, `hook_ssd1306_write_data`),
the frame renderer (`render_screen` and its colour helpers), the frame
scheduler (`update_screen`), the input controller (`arduboy_avr_button_event`)
and the execution loop (`arduboy_avr_loop`), together with theorems checking
the specification's claims against this embedding.  Machine integers are
modelled as `ℕ` (values stay far below every relevant bound; the one `uint8_t`
truncation, in the `RGB` macro, is modelled by `% 256`). -/

namespace ArduboyAvr

/-- Display width in pixels (`OLED_WIDTH_PX`, the Arduboy's 128x64 OLED). -/
def OLED_WIDTH_PX : ℕ := 128

/-- Display height in pixels (`OLED_HEIGHT_PX`). -/
def OLED_HEIGHT_PX : ℕ := 64

/-- Number of 8-pixel pages of the SSD1306 controller (`SSD1306_VIRT_PAGES`,
from the external `ssd1306_virt.h`, for the 128x64 panel). -/
def SSD1306_VIRT_PAGES : ℕ := 8

/-- Number of columns of the SSD1306 controller (`SSD1306_VIRT_COLUMNS`). -/
def SSD1306_VIRT_COLUMNS : ℕ := 128

/-- Number of emulated buttons (`BTN_COUNT` from `arduboy_avr.h`; the `buttons`
array lists 6 entries: up, down, left, right, A, B). -/
def BTN_COUNT : ℕ := 6

/-- Frame period in microseconds (`REFRESH_PERIOD_US` is 16666, about 60 Hz). -/
def REFRESH_PERIOD_US : ℕ := 16666

/-- The luma map: one luminance cell per pixel, indexed (row, column).  Models
`uint8_t lumamap[OLED_HEIGHT_PX][OLED_WIDTH_PX]` in `mod_s`; indices outside
the array bounds are never written by the code below. -/
abbrev LumaMap : Type := ℕ → ℕ → ℕ

/-- Write one cell of the luma map (the assignment `mod_s.lumamap[r][c] = v`). -/
def setCell (lm : LumaMap) (r c v : ℕ) : LumaMap :=
  fun r' c' => if r' = r ∧ c' = c then v else lm r' c'

/-- The slice of the external `ssd1306_t` display-controller state that
`arduboy_avr.c` reads and writes: the bit-packed display memory
`vram[page][column]`, the write cursor, the contrast register, and the status
flags tested via `ssd1306_get_flag` / set via `ssd1306_set_flag`.
`di_pin_data` models the test `ssd1306->di_pin == SSD1306_VIRT_DATA`
(the byte went to the data channel, not the instruction channel). -/
structure Ssd1306 where
  vram : ℕ → ℕ → ℕ
  page : ℕ
  column : ℕ
  dirty : Bool
  di_pin_data : Bool
  display_on : Bool
  seg_remap_0 : Bool
  com_scan_normal : Bool
  display_inverted : Bool
  contrast_register : ℕ

/-- Inner loop of `update_lumamap`: for each `y` in `ys`, store the low bit of
the running byte (`px_col & 0x1`) into `lumamap[p * 8 + y][c]`, then shift the
byte right by one (`px_col >>= 1`).  The state is the pair (luma map, px_col). -/
def luma_y_loop (p c : ℕ) (ys : List ℕ) (s : LumaMap × ℕ) : LumaMap × ℕ :=
  ys.foldl (fun s y => (setCell s.1 (p * 8 + y) c (s.2 &&& 1), s.2 >>> 1)) s

/-- Middle loop of `update_lumamap`: for each column `c` in `cs`, unpack the
byte `vram[p][c]` into rows `p * 8 .. p * 8 + 7` of the luma map. -/
def luma_c_loop (vram : ℕ → ℕ → ℕ) (p : ℕ) (cs : List ℕ) (lm : LumaMap) : LumaMap :=
  cs.foldl (fun lm c => (luma_y_loop p c (List.range 8) (lm, vram p c)).1) lm

/-- Outer loop of `update_lumamap`, over the pages in `ps`. -/
def luma_p_loop (vram : ℕ → ℕ → ℕ) (ps : List ℕ) (lm : LumaMap) : LumaMap :=
  ps.foldl (fun lm p => luma_c_loop vram p (List.range SSD1306_VIRT_COLUMNS) lm) lm

/-- `update_lumamap`: copy the entire bit-packed display memory into the luma
map, unpacking each 8-pixel-per-byte column into 8 individual luma bits. -/
def update_lumamap (vram : ℕ → ℕ → ℕ) (lm : LumaMap) : LumaMap :=
  luma_p_loop vram (List.range SSD1306_VIRT_PAGES) lm

/-- `hook_ssd1306_write_data`: called on every display write notification.  If
the byte went to the data channel and the controller's cursor is at page 0,
column 0 with the dirty flag set, snapshot `vram` into the luma map and clear
the dirty flag; otherwise leave both the controller state and the luma map
unchanged. -/
def hook_ssd1306_write_data (ssd : Ssd1306) (lm : LumaMap) : Ssd1306 × LumaMap :=
  if ssd.di_pin_data then
    if ssd.page = 0 ∧ ssd.column = 0 ∧ ssd.dirty then
      ({ ssd with dirty := false }, update_lumamap ssd.vram lm)
    else (ssd, lm)
  else (ssd, lm)

/-- Closed form of the inner loop: running it over `y ∈ [k, k+n)` with the
byte already shifted `k` times writes bit `r - p*8` of `b` to every cell
`(r, c)` with `p*8 + k ≤ r < p*8 + k + n` and leaves all other cells alone. -/
lemma luma_y_loop_fst (p c : ℕ) :
    ∀ (n k : ℕ) (lm : LumaMap) (b r' c' : ℕ),
    (luma_y_loop p c (List.range' k n) (lm, b >>> k)).1 r' c' =
      if c' = c ∧ p * 8 + k ≤ r' ∧ r' < p * 8 + k + n then
        (b >>> (r' - p * 8)) &&& 1
      else lm r' c' := by
  intro n
  induction n with
  | zero =>
      intro k lm b r' c'
      simp only [List.range', luma_y_loop, List.foldl_nil]
      split_ifs with hx
      · omega
      · rfl
  | succ n ih =>
      intro k lm b r' c'
      have hstep : (luma_y_loop p c (List.range' k (n + 1)) (lm, b >>> k)).1 =
          (luma_y_loop p c (List.range' (k + 1) n)
            (setCell lm (p * 8 + k) c ((b >>> k) &&& 1), b >>> (k + 1))).1 := by
        rw [List.range'_succ]
        simp only [luma_y_loop, List.foldl_cons, Nat.shiftRight_add]
      rw [hstep, ih]
      simp only [setCell]
      split_ifs <;>
        first
          | rfl
          | omega
          | (have hsub : r' - p * 8 = k := by omega
             rw [hsub])

/-- Closed form of the middle loop: running it over columns `c ∈ [c0, c0+m)`
unpacks `vram[p][c]` into rows `p*8 .. p*8+7` of those columns. -/
lemma luma_c_loop_apply (vram : ℕ → ℕ → ℕ) (p : ℕ) :
    ∀ (m c0 : ℕ) (lm : LumaMap) (r' c' : ℕ),
    luma_c_loop vram p (List.range' c0 m) lm r' c' =
      if c0 ≤ c' ∧ c' < c0 + m ∧ p * 8 ≤ r' ∧ r' < p * 8 + 8 then
        (vram p c' >>> (r' - p * 8)) &&& 1
      else lm r' c' := by
  intro m
  induction m with
  | zero =>
      intro c0 lm r' c'
      simp only [List.range', luma_c_loop, List.foldl_nil]
      split_ifs with hx
      · omega
      · rfl
  | succ m ih =>
      intro c0 lm r' c'
      have hcons : luma_c_loop vram p (List.range' c0 (m + 1)) lm =
          luma_c_loop vram p (List.range' (c0 + 1) m)
            ((luma_y_loop p c0 (List.range 8) (lm, vram p c0)).1) := by
        rw [List.range'_succ]
        simp only [luma_c_loop, List.foldl_cons]
      rw [hcons, ih]
      have hy : (luma_y_loop p c0 (List.range 8) (lm, vram p c0)).1 r' c' =
          if c' = c0 ∧ p * 8 + 0 ≤ r' ∧ r' < p * 8 + 0 + 8 then
            (vram p c0 >>> (r' - p * 8)) &&& 1
          else lm r' c' := by
        have := luma_y_loop_fst p c0 8 0 lm (vram p c0) r' c'
        rwa [← List.range_eq_range', Nat.shiftRight_zero] at this
      rw [hy]
      split_ifs <;>
        first
          | rfl
          | omega
          | (have hcc : c' = c0 := by omega
             rw [hcc])

/-- Closed form of the outer loop over pages `p ∈ [p0, p0+q)`. -/
lemma luma_p_loop_apply (vram : ℕ → ℕ → ℕ) :
    ∀ (q p0 : ℕ) (lm : LumaMap) (r' c' : ℕ),
    luma_p_loop vram (List.range' p0 q) lm r' c' =
      if p0 * 8 ≤ r' ∧ r' < (p0 + q) * 8 ∧ c' < SSD1306_VIRT_COLUMNS then
        (vram (r' / 8) c' >>> (r' % 8)) &&& 1
      else lm r' c' := by
  intro q
  induction q with
  | zero =>
      intro p0 lm r' c'
      simp only [List.range', luma_p_loop, List.foldl_nil]
      split_ifs with hx
      · omega
      · rfl
  | succ q ih =>
      intro p0 lm r' c'
      have hcons : luma_p_loop vram (List.range' p0 (q + 1)) lm =
          luma_p_loop vram (List.range' (p0 + 1) q)
            (luma_c_loop vram p0 (List.range SSD1306_VIRT_COLUMNS) lm) := by
        rw [List.range'_succ]
        simp only [luma_p_loop, List.foldl_cons]
      rw [hcons, ih]
      have hcol : luma_c_loop vram p0 (List.range SSD1306_VIRT_COLUMNS) lm r' c' =
          if 0 ≤ c' ∧ c' < 0 + SSD1306_VIRT_COLUMNS ∧ p0 * 8 ≤ r' ∧ r' < p0 * 8 + 8 then
            (vram p0 c' >>> (r' - p0 * 8)) &&& 1
          else lm r' c' := by
        have := luma_c_loop_apply vram p0 SSD1306_VIRT_COLUMNS 0 lm r' c'
        rwa [← List.range_eq_range'] at this
      rw [hcol]
      split_ifs <;>
        first
          | rfl
          | omega
          | (have hdiv : r' / 8 = p0 := by omega
             have hmod : r' % 8 = r' - p0 * 8 := by omega
             rw [hdiv, hmod])

/-- Closed form of `update_lumamap`: every in-range cell `(r, c)` becomes bit
`r % 8` of `vram[r / 8][c]`; out-of-range indices are untouched. -/
lemma update_lumamap_apply (vram : ℕ → ℕ → ℕ) (lm : LumaMap) (r c : ℕ) :
    update_lumamap vram lm r c =
      if r < OLED_HEIGHT_PX ∧ c < OLED_WIDTH_PX then
        (vram (r / 8) c >>> (r % 8)) &&& 1
      else lm r c := by
  unfold update_lumamap
  rw [List.range_eq_range', luma_p_loop_apply]
  have hiff : (0 * 8 ≤ r ∧ r < (0 + SSD1306_VIRT_PAGES) * 8 ∧ c < SSD1306_VIRT_COLUMNS) ↔
      (r < OLED_HEIGHT_PX ∧ c < OLED_WIDTH_PX) := by
    unfold SSD1306_VIRT_PAGES SSD1306_VIRT_COLUMNS OLED_HEIGHT_PX OLED_WIDTH_PX
    omega
  by_cases h : r < OLED_HEIGHT_PX ∧ c < OLED_WIDTH_PX
  · rw [if_pos (hiff.mpr h), if_pos h]
  · rw [if_neg (fun hh => h (hiff.mp hh)), if_neg h]

/-- The `RGB(r, g, b)` macro: an opaque-alpha ARGB word,
`0xFF000000 | (uint8_t)(r) << 16 | (uint8_t)(g) << 8 | (uint8_t)(b)`;
the `uint8_t` casts are modelled by `% 256`. -/
def RGB (r g b : ℕ) : ℕ :=
  0xFF000000 ||| (r % 256) <<< 16 ||| (g % 256) <<< 8 ||| (b % 256)

/-- `BLACK`, i.e. `RGB(0, 0, 0)`. -/
def BLACK : ℕ := RGB 0 0 0

/-- `get_fg_colour`: black when inverted, else a gray whose three channels are
all `255 * opacity`, truncated to `uint8_t` by the `RGB` macro's cast.  The C
computes in binary floating point, but every opacity produced by
`contrast_to_opacity` has the form `(contrast + 256) / 512` with
`contrast ≤ 255`, so `opacity` and `255 * opacity` need at most 17 mantissa
bits and are computed exactly; the `(uint8_t)` conversion of the nonnegative
result truncates toward zero, i.e. takes the floor.  The exact rational model
below is therefore faithful. -/
def get_fg_colour (invert : Bool) (opacity : ℚ) : ℕ :=
  if invert then BLACK
  else
    RGB (Nat.floor (255 * opacity)) (Nat.floor (255 * opacity)) (Nat.floor (255 * opacity))

/-- `get_bg_colour`: black when not inverted, else the foreground computation
with invert forced off (`get_fg_colour(0, opacity)`). -/
def get_bg_colour (invert : Bool) (opacity : ℚ) : ℕ :=
  if invert then get_fg_colour false opacity else BLACK

/-- `contrast_to_opacity`: `contrast / 512.0 + 0.5`, exact in `ℚ` (see
`get_fg_colour` on why the floating-point computation is exact here). -/
def contrast_to_opacity (contrast : ℕ) : ℚ := contrast / 512 + 1 / 2

/-- The index sequence one axis of the `render_screen` loops visits.  The C
initialises `orig = 0, v = 1`, flipped to `orig = size - 1, v = -1` when the
axis's mirroring flag is set, so `for (i = orig; i >= 0 && i < size; i += v)`
visits `0, …, size-1`, or its reverse when the flag is set. -/
def mirror_order (reversed : Bool) (size : ℕ) : List ℕ :=
  if reversed then (List.range size).reverse else List.range size

/-- The sequence of ARGB words `render_screen` stores through `*pixels++`, in
store order: rows in `com_scan_normal`-mirrored order, within each row the
columns in `seg_remap_0`-mirrored order, each pixel `fg_color` when its luma
cell is non-zero and `bg_color` otherwise (the two colours are computed once,
before the loops, from the invert flag and the contrast register). -/
def render_writes (ssd : Ssd1306) (lm : LumaMap) : List ℕ :=
  let invert := ssd.display_inverted
  let opacity := contrast_to_opacity ssd.contrast_register
  let bg_color := get_bg_colour invert opacity
  let fg_color := get_fg_colour invert opacity
  (mirror_order ssd.com_scan_normal OLED_HEIGHT_PX).flatMap (fun y =>
    (mirror_order ssd.seg_remap_0 OLED_WIDTH_PX).map (fun x =>
      if lm y x ≠ 0 then fg_color else bg_color))

/-- `render_screen`: when the display-on flag is clear, return at once without
touching the pixel buffer; otherwise overwrite buffer slots `0, 1, …` with the
loops' stores.  The buffer is modelled as a map from flat index to ARGB word. -/
def render_screen (ssd : Ssd1306) (lm : LumaMap) (pixels : ℕ → ℕ) : ℕ → ℕ :=
  if ssd.display_on then fun k => (render_writes ssd lm).getD k (pixels k)
  else pixels

lemma mirror_order_length (b : Bool) (n : ℕ) : (mirror_order b n).length = n := by
  cases b <;> simp [mirror_order]

lemma mirror_order_getD (b : Bool) (n i : ℕ) (h : i < n) (d : ℕ) :
    (mirror_order b n).getD i d = if b then n - 1 - i else i := by
  cases b
  · simp [mirror_order, List.getD_eq_getElem?_getD, List.getElem?_range h]
  · have hrev : i < (List.range n).length := by simpa using h
    simp [mirror_order, List.getD_eq_getElem?_getD, List.getElem?_reverse hrev,
      List.length_range, List.getElem?_range (show n - 1 - i < n by omega)]

/-- Indexing a flat concatenation of equal-length blocks: position
`i * W + j` lands in block `i` at offset `j`. -/
lemma getD_flatMap_blocks {α β : Type} (a₀ : α) (f : α → List β) (W : ℕ) :
    ∀ (l : List α) (i j : ℕ) (d : β), (∀ a ∈ l, (f a).length = W) →
    i < l.length → j < W →
    (l.flatMap f).getD (i * W + j) d = (f (l.getD i a₀)).getD j d := by
  intro l
  induction l with
  | nil =>
      intro i j d _ hi _
      simp at hi
  | cons a t ih =>
      intro i j d hlen hi hj
      rw [List.flatMap_cons]
      have hfa : (f a).length = W := hlen a (by simp)
      cases i with
      | zero =>
          have hlt : 0 * W + j < (f a).length := by omega
          rw [List.getD_eq_getElem?_getD, List.getElem?_append_left hlt,
            ← List.getD_eq_getElem?_getD]
          simp
      | succ i =>
          have hsm : (i + 1) * W = i * W + W := by rw [Nat.succ_mul]
          have hge : (f a).length ≤ (i + 1) * W + j := by omega
          rw [List.getD_eq_getElem?_getD, List.getElem?_append_right hge,
            ← List.getD_eq_getElem?_getD]
          have hidx : (i + 1) * W + j - (f a).length = i * W + j := by omega
          rw [hidx, List.getD_cons_succ]
          exact ih i j d (fun x hx => hlen x (by simp [hx])) (by simpa using hi) hj

/-- Which pixel the renderer stores at flat position `i * OLED_WIDTH_PX + j`:
the luma cell whose row is `i` counted from the bottom when `com_scan_normal`
is set (else from the top), and whose column is `j` counted from the right
when `seg_remap_0` is set (else from the left). -/
lemma render_writes_getD (ssd : Ssd1306) (lm : LumaMap) (i j : ℕ)
    (hi : i < OLED_HEIGHT_PX) (hj : j < OLED_WIDTH_PX) (d : ℕ) :
    (render_writes ssd lm).getD (i * OLED_WIDTH_PX + j) d =
      if lm (if ssd.com_scan_normal then OLED_HEIGHT_PX - 1 - i else i)
            (if ssd.seg_remap_0 then OLED_WIDTH_PX - 1 - j else j) ≠ 0 then
        get_fg_colour ssd.display_inverted (contrast_to_opacity ssd.contrast_register)
      else
        get_bg_colour ssd.display_inverted (contrast_to_opacity ssd.contrast_register) := by
  unfold render_writes
  rw [getD_flatMap_blocks 0 _ OLED_WIDTH_PX _ i j d
    (fun a _ => by rw [List.length_map, mirror_order_length])
    (by rwa [mirror_order_length]) hj]
  rw [mirror_order_getD ssd.com_scan_normal OLED_HEIGHT_PX i hi 0]
  rw [List.getD_eq_getElem?_getD, List.getElem?_map]
  have hj' : j < (mirror_order ssd.seg_remap_0 OLED_WIDTH_PX).length := by
    rwa [mirror_order_length]
  rw [List.getElem?_eq_getElem hj']
  have hmj : (mirror_order ssd.seg_remap_0 OLED_WIDTH_PX).get ⟨j, hj'⟩ =
      if ssd.seg_remap_0 then OLED_WIDTH_PX - 1 - j else j := by
    have := mirror_order_getD ssd.seg_remap_0 OLED_WIDTH_PX j hj 0
    rwa [List.getD_eq_getElem?_getD, List.getElem?_eq_getElem hj'] at this
  simp only [List.get_eq_getElem] at hmj
  simp [hmj]

/-- The engine's microseconds-to-cycles conversion used when registering and
re-arming the frame timer: `avr_usec_to_cycles(avr, usec)` of the external
engine translates a microsecond span into cycle units of the engine's
configured clock frequency. -/
def avr_usec_to_cycles (frequency usec : ℕ) : ℕ := frequency * usec / 1000000

/-- Result of one firing of the frame-scheduler callback `update_screen`: the
pixel buffer after rendering, the new yield flag, and the cycle count returned
to the engine as the absolute time of the next firing. -/
structure UpdateScreenOut where
  pixels : ℕ → ℕ
  yield : Bool
  next : ℕ

set_option linter.unusedVariables false in
/-- `update_screen(avr, when, param)`: invoke the renderer, set the yield flag,
and return `avr->cycle + avr_usec_to_cycles(avr, REFRESH_PERIOD_US)` as the
next firing time.  `cycle` models `avr->cycle`, the engine's current cycle
count at the moment the callback runs; `when` is the cycle count the firing
had been scheduled for (the body does not use it). -/
def update_screen (cycle frequency : ℕ) (when : ℕ) (ssd : Ssd1306) (lm : LumaMap)
    (pixels : ℕ → ℕ) : UpdateScreenOut :=
  { pixels := render_screen ssd lm pixels
    yield := true
    next := cycle + avr_usec_to_cycles frequency REFRESH_PERIOD_US }

/-- Stored pressed state of the `buttons` array: entry `i` models
`buttons[i].pressed` (all `BTN_COUNT` entries start out false / released). -/
abbrev ButtonsPressed : Type := List Bool

/-- `arduboy_avr_button_event(btn_e, pressed)`: with no active engine, return
at once.  Otherwise take the button's entry only when `btn_e < BTN_COUNT`
(else the pointer is NULL and the body is skipped); on an actual state
transition raise the button's GPIO line to `!pressed` (active-low) and store
the new state.  Returns the updated pressed array together with the line
raises performed, as (button index, line level) pairs. -/
def arduboy_avr_button_event (hasAvr : Bool) (st : ButtonsPressed) (btn_e : ℕ)
    (pressed : Bool) : ButtonsPressed × List (ℕ × Bool) :=
  if ¬ hasAvr then (st, [])
  else if btn_e < BTN_COUNT then
    if st.getD btn_e false ≠ pressed then (st.set btn_e pressed, [(btn_e, !pressed)])
    else (st, [])
  else (st, [])

/-- A sequence of `arduboy_avr_button_event` calls, threading the stored state
through and concatenating the line raises. -/
def run_button_events (hasAvr : Bool) :
    ButtonsPressed → List (ℕ × Bool) → ButtonsPressed × List (ℕ × Bool)
  | st, [] => (st, [])
  | st, e :: es =>
      let r := arduboy_avr_button_event hasAvr st e.1 e.2
      let r2 := run_button_events hasAvr r.1 es
      (r2.1, r.2 ++ r2.2)

/-- The engine states `avr_run` reports (simavr's `avr->state`); the loop only
distinguishes `cpu_Done` and `cpu_Crashed` from the rest. -/
inductive CpuState where
  | Running
  | Sleeping
  | Done
  | Crashed

/-- The loop's terminal-state test, `state == cpu_Done || state == cpu_Crashed`. -/
def isTerminal : CpuState → Bool
  | .Done => true
  | .Crashed => true
  | _ => false

/-- What one call of the external `avr_run` did, as observed by the loop: the
state it returned, and whether the frame timer fired during the call (a firing
runs `update_screen`, which invokes the renderer and sets the yield flag). -/
structure StepOutcome where
  state : CpuState
  timerFired : Bool

/-- The `while (!mod_s.yield)` loop of `arduboy_avr_loop`, fed the sequence of
`avr_run` outcomes of this burst: each iteration runs one step and returns
false when the step reported `cpu_Done` or `cpu_Crashed`; otherwise the loop
exits with true once the yield flag was set by a step's timer firing (the flag
was cleared on entry and only `update_screen` sets it).  `none` means the
modelled outcome sequence was exhausted before either exit. -/
def run_burst : List StepOutcome → Option Bool
  | [] => none
  | s :: rest =>
      if isTerminal s.state then some false
      else if s.timerFired then some true
      else run_burst rest

/-- Number of renderer invocations during the burst: the timer firings of the
steps the loop actually executed before returning. -/
def burst_renders : List StepOutcome → ℕ
  | [] => 0
  | s :: rest =>
      (if s.timerFired then 1 else 0) +
        (if isTerminal s.state || s.timerFired then 0 else burst_renders rest)

/-- `arduboy_avr_loop(pixels)`: false at once when no engine is active;
otherwise clear the yield flag and run the burst. -/
def arduboy_avr_loop (hasAvr : Bool) (steps : List StepOutcome) : Option Bool :=
  if ¬ hasAvr then some false else run_burst steps

/-- The two nested guards of the write hook, fused into one test. -/
lemma hook_eq (ssd : Ssd1306) (lm : LumaMap) :
    hook_ssd1306_write_data ssd lm =
      if ssd.di_pin_data = true ∧ ssd.page = 0 ∧ ssd.column = 0 ∧ ssd.dirty = true then
        ({ ssd with dirty := false }, update_lumamap ssd.vram lm)
      else (ssd, lm) := by
  by_cases hd : ssd.di_pin_data = true
  · by_cases hin : ssd.page = 0 ∧ ssd.column = 0 ∧ ssd.dirty = true
    · have hq : ssd.di_pin_data = true ∧ ssd.page = 0 ∧ ssd.column = 0 ∧ ssd.dirty = true :=
        ⟨hd, hin⟩
      simp [hook_ssd1306_write_data, hd, hin, hq]
    · have hq : ¬ (ssd.di_pin_data = true ∧ ssd.page = 0 ∧ ssd.column = 0 ∧
          ssd.dirty = true) := by tauto
      simp [hook_ssd1306_write_data, hd, hin, hq]
  · have hq : ¬ (ssd.di_pin_data = true ∧ ssd.page = 0 ∧ ssd.column = 0 ∧
        ssd.dirty = true) := by tauto
    simp [hook_ssd1306_write_data, hd, hq]

/-- On the snapshot path, each in-range luma cell becomes the matching bit of
the bit-packed display memory. -/
lemma hook_qualifying_cell (ssd : Ssd1306) (lm : LumaMap) (r c : ℕ)
    (hq : ssd.di_pin_data = true ∧ ssd.page = 0 ∧ ssd.column = 0 ∧ ssd.dirty = true)
    (hr : r < OLED_HEIGHT_PX) (hc : c < OLED_WIDTH_PX) :
    (hook_ssd1306_write_data ssd lm).2 r c = (ssd.vram (r / 8) c >>> (r % 8)) &&& 1 := by
  rw [hook_eq, if_pos hq]
  rw [show ({ ssd with dirty := false }, update_lumamap ssd.vram lm).2 =
    update_lumamap ssd.vram lm from rfl]
  rw [update_lumamap_apply, if_pos ⟨hr, hc⟩]

/-- A prefix of steps that neither terminate nor fire the timer is skipped by
the burst loop. -/
lemma run_burst_skips_clean_steps :
    ∀ (pre : List StepOutcome),
    (∀ t ∈ pre, isTerminal t.state = false ∧ t.timerFired = false) →
    ∀ rest : List StepOutcome, run_burst (pre ++ rest) = run_burst rest := by
  intro pre
  induction pre with
  | nil => intro _ rest; rfl
  | cons a t ih =>
      intro h rest
      have ha := h a (by simp)
      rw [List.cons_append]
      rw [show run_burst (a :: (t ++ rest)) = run_burst (t ++ rest) by
        simp [run_burst, ha.1, ha.2]]
      exact ih (fun x hx => h x (by simp [hx])) rest

/-- The burst loop answers false exactly when a terminal step is reached
before any terminal-free, firing-free prefix ends. -/
lemma run_burst_false_iff (steps : List StepOutcome) :
    run_burst steps = some false ↔
      ∃ pre s post, steps = pre ++ s :: post ∧ isTerminal s.state = true ∧
        ∀ t ∈ pre, isTerminal t.state = false ∧ t.timerFired = false := by
  induction steps with
  | nil =>
      constructor
      · intro h
        simp [run_burst] at h
      · rintro ⟨pre, s, post, heq, -, -⟩
        cases pre <;> simp at heq
  | cons a t ih =>
      by_cases ha : isTerminal a.state = true
      · constructor
        · intro _
          exact ⟨[], a, t, rfl, ha, by simp⟩
        · intro _
          simp [run_burst, ha]
      · have ha' : isTerminal a.state = false := by
          cases h : isTerminal a.state
          · rfl
          · exact absurd h ha
        by_cases hf : a.timerFired = true
        · constructor
          · intro h
            rw [show run_burst (a :: t) = some true by simp [run_burst, ha', hf]] at h
            simp at h
          · rintro ⟨pre, s, post, heq, hterm, hclean⟩
            cases pre with
            | nil =>
                simp at heq
                rw [heq.1] at ha
                exact absurd hterm ha
            | cons p pre' =>
                simp at heq
                have := (hclean p (by simp)).2
                rw [← heq.1] at this
                rw [this] at hf
                simp at hf
        · have hf' : a.timerFired = false := by
            cases h : a.timerFired
            · rfl
            · exact absurd h hf
          rw [show run_burst (a :: t) = run_burst t by simp [run_burst, ha', hf']]
          rw [ih]
          constructor
          · rintro ⟨pre, s, post, heq, hterm, hclean⟩
            refine ⟨a :: pre, s, post, by rw [heq, List.cons_append], hterm, ?_⟩
            intro x hx
            rcases (by simpa using hx : x = a ∨ x ∈ pre) with h | h
            · rw [h]; exact ⟨ha', hf'⟩
            · exact hclean x h
          · rintro ⟨pre, s, post, heq, hterm, hclean⟩
            cases pre with
            | nil =>
                simp at heq
                rw [heq.1] at ha
                exact absurd hterm ha
            | cons p pre' =>
                simp at heq
                exact ⟨pre', s, post, heq.2, hterm,
                  fun x hx => hclean x (by simp [hx])⟩

/-- Reading back the slot just stored in the pressed-state array. -/
lemma getD_set_self (st : List Bool) (b : ℕ) (v d : Bool) (h : b < st.length) :
    (st.set b v).getD b d = v := by
  rw [List.getD_eq_getElem?_getD, List.getElem?_set_self h]
  rfl

/-- A display-controller state with the power flag off (all other fields
arbitrary concrete values), for witnesses. -/
def exOffSsd : Ssd1306 :=
  { vram := fun _ _ => 0, page := 0, column := 0, dirty := false, di_pin_data := true,
    display_on := false, seg_remap_0 := false, com_scan_normal := false,
    display_inverted := false, contrast_register := 0 }

/-- A display-controller state with the power flag on and both mirroring
flags set, for witnesses. -/
def exOnSsd : Ssd1306 :=
  { vram := fun _ _ => 0, page := 0, column := 0, dirty := false, di_pin_data := true,
    display_on := true, seg_remap_0 := true, com_scan_normal := true,
    display_inverted := false, contrast_register := 128 }

/-- C5: for every luma map, display flags and initial pixel-buffer contents,
when the display power flag is off the renderer returns without writing: every
element of the pixel buffer is left unchanged. -/
theorem c5_render_display_off (ssd : Ssd1306) (lm : LumaMap) (pixels : ℕ → ℕ)
    (hoff : ssd.display_on = false) :
    render_screen ssd lm pixels = pixels := by
  simp [render_screen, hoff]

/-- Witness for C5 at a concrete powered-off state and buffer. -/
theorem c5_witness :
    render_screen exOffSsd (fun _ _ => 1) (fun k => k + 7) = (fun k => k + 7) :=
  c5_render_display_off exOffSsd (fun _ _ => 1) (fun k => k + 7) rfl

/-- C6: the renderer's opacity is `contrast / 512 + 1/2` for every contrast
value, in particular exactly `1/2` at contrast 0 and `255/512 + 1/2` at
contrast 255; invert forces the foreground to pure black (0,0,0) regardless of
contrast; otherwise the foreground is the gray whose three equal channels are
`255 * opacity` (truncated to a byte by the `RGB` cast); the background is
pure black when not inverted, and the non-inverted foreground gray when
inverted. -/
theorem c6_opacity_and_colours :
    (∀ c : ℕ, contrast_to_opacity c = c / 512 + 1 / 2) ∧
    contrast_to_opacity 0 = 1 / 2 ∧
    contrast_to_opacity 255 = 255 / 512 + 1 / 2 ∧
    (∀ op : ℚ, get_fg_colour true op = RGB 0 0 0) ∧
    (∀ c : ℕ, get_fg_colour false (contrast_to_opacity c) =
      RGB (Nat.floor (255 * ((c : ℚ) / 512 + 1 / 2)))
          (Nat.floor (255 * ((c : ℚ) / 512 + 1 / 2)))
          (Nat.floor (255 * ((c : ℚ) / 512 + 1 / 2)))) ∧
    (∀ op : ℚ, get_bg_colour false op = RGB 0 0 0) ∧
    (∀ op : ℚ, get_bg_colour true op = get_fg_colour false op) := by
  refine ⟨fun c => rfl, by norm_num [contrast_to_opacity], rfl,
    fun op => rfl, fun c => rfl, fun op => rfl, fun op => rfl⟩

/-- C7: with the display on, each mirroring flag independently reverses the
iteration order along its own axis: the pixel the renderer writes at flat
buffer index `i * OLED_WIDTH_PX + j` is read from luma row `i` counted from
the bottom when `com_scan_normal` is set (else from the top) and from luma
column `j` counted from the right when `seg_remap_0` is set (else from the
left) — so buffer index (0,0) receives the top-left, top-right, bottom-left or
bottom-right luma corner according to the four flag combinations. -/
theorem c7_mirroring (ssd : Ssd1306) (lm : LumaMap) (pixels : ℕ → ℕ) (i j : ℕ)
    (hon : ssd.display_on = true) (hi : i < OLED_HEIGHT_PX) (hj : j < OLED_WIDTH_PX) :
    render_screen ssd lm pixels (i * OLED_WIDTH_PX + j) =
      if lm (if ssd.com_scan_normal then OLED_HEIGHT_PX - 1 - i else i)
            (if ssd.seg_remap_0 then OLED_WIDTH_PX - 1 - j else j) ≠ 0 then
        get_fg_colour ssd.display_inverted (contrast_to_opacity ssd.contrast_register)
      else
        get_bg_colour ssd.display_inverted (contrast_to_opacity ssd.contrast_register) := by
  have h := render_writes_getD ssd lm i j hi hj (pixels (i * OLED_WIDTH_PX + j))
  rw [← h]
  simp [render_screen, hon]

/-- Witness for C7: with both mirroring flags set, buffer index 0 receives the
bottom-right luma corner (row 63, column 127) — here the only lit cell, so the
foreground colour appears at buffer index 0. -/
theorem c7_witness :
    render_screen exOnSsd (fun r c => if r = 63 ∧ c = 127 then 1 else 0) (fun _ => 0)
        (0 * OLED_WIDTH_PX + 0) =
      if (fun r c => if r = 63 ∧ c = 127 then (1 : ℕ) else 0)
            (if exOnSsd.com_scan_normal then OLED_HEIGHT_PX - 1 - 0 else 0)
            (if exOnSsd.seg_remap_0 then OLED_WIDTH_PX - 1 - 0 else 0) ≠ 0 then
        get_fg_colour exOnSsd.display_inverted (contrast_to_opacity exOnSsd.contrast_register)
      else
        get_bg_colour exOnSsd.display_inverted (contrast_to_opacity exOnSsd.contrast_register) :=
  c7_mirroring exOnSsd (fun r c => if r = 63 ∧ c = 127 then 1 else 0) (fun _ => 0) 0 0
    rfl (by decide) (by decide)

/-- A qualifying-notification state whose display memory is all zero — the
state right after setup, where the luma map is also all zero. -/
def c1Ssd : Ssd1306 :=
  { vram := fun _ _ => 0, page := 0, column := 0, dirty := true, di_pin_data := true,
    display_on := true, seg_remap_0 := false, com_scan_normal := false,
    display_inverted := false, contrast_register := 128 }

/-- Counterexample to C1 as stated: here a notification arrives on the data
channel with the cursor at page 0, column 0 and the dirty flag set — a
qualifying notification — yet the LumaMap does not change, because the
unpacked display memory (all zero) already equals the current LumaMap (all
zero, as right after setup).  The "if" direction of the claimed equivalence
fails. -/
theorem c1_counterexample :
    (c1Ssd.di_pin_data = true ∧ c1Ssd.page = 0 ∧ c1Ssd.column = 0 ∧ c1Ssd.dirty = true) ∧
    (hook_ssd1306_write_data c1Ssd (fun _ _ => 0)).2 = (fun _ _ => 0 : LumaMap) := by
  refine ⟨⟨rfl, rfl, rfl, rfl⟩, ?_⟩
  rw [hook_eq, if_pos ⟨rfl, rfl, rfl, rfl⟩]
  funext r c
  rw [show ({ c1Ssd with dirty := false }, update_lumamap c1Ssd.vram (fun _ _ => 0)).2 =
    update_lumamap c1Ssd.vram (fun _ _ => 0) from rfl]
  rw [update_lumamap_apply]
  simp [c1Ssd]

/-- C1 amended: a notification on the data channel while the cursor is at
page 0, column 0 with the dirty flag set overwrites the entire LumaMap with
the unpacked bit-packed display memory and clears the dirty flag (which
changes the LumaMap exactly when the unpacked memory differs from its current
contents); a notification at any other cursor position, or with the dirty
flag clear, or not on the data channel, leaves the LumaMap and the controller
state unchanged. -/
theorem c1_snapshot_exactly_on_qualifying (ssd : Ssd1306) (lm : LumaMap) :
    ((ssd.di_pin_data = true ∧ ssd.page = 0 ∧ ssd.column = 0 ∧ ssd.dirty = true) →
      (hook_ssd1306_write_data ssd lm).1 = { ssd with dirty := false } ∧
      ∀ r c : ℕ, r < OLED_HEIGHT_PX → c < OLED_WIDTH_PX →
        (hook_ssd1306_write_data ssd lm).2 r c = (ssd.vram (r / 8) c >>> (r % 8)) &&& 1) ∧
    (¬ (ssd.di_pin_data = true ∧ ssd.page = 0 ∧ ssd.column = 0 ∧ ssd.dirty = true) →
      hook_ssd1306_write_data ssd lm = (ssd, lm)) := by
  constructor
  · intro hq
    refine ⟨?_, fun r c hr hc => hook_qualifying_cell ssd lm r c hq hr hc⟩
    rw [hook_eq, if_pos hq]
  · intro hq
    rw [hook_eq, if_neg hq]

/-- A qualifying state with non-zero display memory, for the C1 witness. -/
def c1bSsd : Ssd1306 :=
  { vram := fun _ _ => 5, page := 0, column := 0, dirty := true, di_pin_data := true,
    display_on := true, seg_remap_0 := false, com_scan_normal := false,
    display_inverted := false, contrast_register := 0 }

/-- Witness for the amended C1 at a concrete qualifying state: the dirty flag
is cleared and cell (2, 3) holds bit 2 of the byte at page 0, column 3. -/
theorem c1_witness :
    (hook_ssd1306_write_data c1bSsd (fun _ _ => 0)).1 = { c1bSsd with dirty := false } ∧
    (hook_ssd1306_write_data c1bSsd (fun _ _ => 0)).2 2 3 =
      (c1bSsd.vram (2 / 8) 3 >>> (2 % 8)) &&& 1 :=
  ⟨((c1_snapshot_exactly_on_qualifying c1bSsd (fun _ _ => 0)).1 ⟨rfl, rfl, rfl, rfl⟩).1,
   ((c1_snapshot_exactly_on_qualifying c1bSsd (fun _ _ => 0)).1 ⟨rfl, rfl, rfl, rfl⟩).2
     2 3 (by decide) (by decide)⟩

/-- Counterexample to C2 as stated: `update_screen` re-arms relative to the
engine's current cycle count, not the scheduled fire time.  At scheduled fire
time 100 with the engine already at cycle 105 (a slightly late firing, 16 MHz
clock), the returned next fire time is 105 + period, which differs from
previous-fire-time + period = 100 + period. -/
theorem c2_counterexample :
    (update_screen 105 16000000 100 exOffSsd (fun _ _ => 0) (fun _ => 0)).next ≠
      100 + avr_usec_to_cycles 16000000 REFRESH_PERIOD_US := by
  decide

/-- C2 amended: on each firing the callback invokes the renderer, sets the
yield flag, and re-arms itself for current-cycle-count + period
(`avr->cycle + avr_usec_to_cycles(avr, REFRESH_PERIOD_US)`), i.e. "now +
period"; this equals the original claim's previous-fire-time + period exactly
when the callback runs at its scheduled cycle, so a late firing shifts the
subsequent frame clock rather than being absorbed. -/
theorem c2_rearm_now_plus_period (cycle frequency when : ℕ) (ssd : Ssd1306)
    (lm : LumaMap) (pixels : ℕ → ℕ) :
    (update_screen cycle frequency when ssd lm pixels).pixels =
        render_screen ssd lm pixels ∧
    (update_screen cycle frequency when ssd lm pixels).yield = true ∧
    (update_screen cycle frequency when ssd lm pixels).next =
        cycle + avr_usec_to_cycles frequency REFRESH_PERIOD_US ∧
    ((update_screen cycle frequency when ssd lm pixels).next =
        when + avr_usec_to_cycles frequency REFRESH_PERIOD_US ↔ cycle = when) := by
  refine ⟨rfl, rfl, rfl, ?_⟩
  show cycle + avr_usec_to_cycles frequency REFRESH_PERIOD_US =
      when + avr_usec_to_cycles frequency REFRESH_PERIOD_US ↔ cycle = when
  omega

/-- C8: every mutation of the LumaMap is a full-frame snapshot — if the write
hook changed any in-range cell, then in that same step every in-range cell was
rewritten from the bit-packed display memory, each 8-pixel byte column
unpacked into 8 individual luma bits; the LumaMap is never partially
overwritten. -/
theorem c8_full_frame_snapshot (ssd : Ssd1306) (lm : LumaMap) (r' c' : ℕ)
    (hchange : ∃ r c, r < OLED_HEIGHT_PX ∧ c < OLED_WIDTH_PX ∧
      (hook_ssd1306_write_data ssd lm).2 r c ≠ lm r c)
    (hr : r' < OLED_HEIGHT_PX) (hc : c' < OLED_WIDTH_PX) :
    (hook_ssd1306_write_data ssd lm).2 r' c' =
      (ssd.vram (r' / 8) c' >>> (r' % 8)) &&& 1 := by
  by_cases hq : ssd.di_pin_data = true ∧ ssd.page = 0 ∧ ssd.column = 0 ∧ ssd.dirty = true
  · exact hook_qualifying_cell ssd lm r' c' hq hr hc
  · obtain ⟨r, c, -, -, hne⟩ := hchange
    rw [hook_eq, if_neg hq] at hne
    exact absurd rfl hne

/-- A qualifying state every byte of whose display memory is 1, for the C8
witness. -/
def c8Ssd : Ssd1306 :=
  { vram := fun _ _ => 1, page := 0, column := 0, dirty := true, di_pin_data := true,
    display_on := true, seg_remap_0 := false, com_scan_normal := false,
    display_inverted := false, contrast_register := 0 }

/-- Witness for C8 at a concrete state where cell (0, 0) changes: cell (0, 1)
is rewritten from the display memory in the same step. -/
theorem c8_witness :
    (hook_ssd1306_write_data c8Ssd (fun _ _ => 0)).2 0 1 =
      (c8Ssd.vram (0 / 8) 1 >>> (0 % 8)) &&& 1 :=
  c8_full_frame_snapshot c8Ssd (fun _ _ => 0) 0 1
    ⟨0, 0, by decide, by decide, by
      rw [hook_qualifying_cell c8Ssd (fun _ _ => 0) 0 0 ⟨rfl, rfl, rfl, rfl⟩
        (by decide) (by decide)]
      decide⟩
    (by decide) (by decide)

/-- Once a button is stored as pressed, further presses are no-ops and the
final release produces exactly one more transition (to line high). -/
lemma run_button_events_pressed_suffix (b : ℕ) (hb : b < BTN_COUNT) :
    ∀ (n : ℕ) (st : ButtonsPressed), st.getD b false = true →
    run_button_events true st (List.replicate n (b, true) ++ [(b, false)]) =
      (st.set b false, [(b, true)]) := by
  intro n
  induction n with
  | zero =>
      intro st hst
      have hst' : st[b]?.getD false = true := by simpa using hst
      simp [run_button_events, arduboy_avr_button_event, hb, hst']
  | succ n ih =>
      intro st hst
      have hst' : st[b]?.getD false = true := by simpa using hst
      rw [List.replicate_succ, List.cons_append]
      simp [run_button_events, arduboy_avr_button_event, hb, hst', ih st hst]

/-- C9: for every valid button id, a call whose `pressed` equals the stored
state performs no line change and no state change; a call whose `pressed`
differs raises the line to the logical negation of `pressed` (active-low:
press drives the line to 0, release to 1) and stores the new state; hence from
a released state, a press followed by any number of repeated presses produces
exactly one line transition, and the matching release exactly one more. -/
theorem c9_button_edge_triggered :
    (∀ (st : ButtonsPressed) (b : ℕ) (pr : Bool), b < BTN_COUNT →
      st.getD b false = pr →
      arduboy_avr_button_event true st b pr = (st, [])) ∧
    (∀ (st : ButtonsPressed) (b : ℕ) (pr : Bool), b < BTN_COUNT →
      st.getD b false ≠ pr →
      arduboy_avr_button_event true st b pr = (st.set b pr, [(b, !pr)])) ∧
    (∀ (st : ButtonsPressed) (b n : ℕ), b < BTN_COUNT → st.length = BTN_COUNT →
      st.getD b false = false →
      (run_button_events true st
          (List.replicate (n + 1) (b, true) ++ [(b, false)])).2 =
        [(b, false), (b, true)]) := by
  refine ⟨?_, ?_, ?_⟩
  · intro st b pr hb hst
    have hst' : st[b]?.getD false = pr := by simpa using hst
    simp [arduboy_avr_button_event, hb, hst']
  · intro st b pr hb hne
    have hne' : ¬ st[b]?.getD false = pr := by simpa using hne
    simp [arduboy_avr_button_event, hb, hne']
  · intro st b n hb hlen hst
    have hst' : st[b]?.getD false = false := by simpa using hst
    rw [List.replicate_succ, List.cons_append]
    have hev : arduboy_avr_button_event true st b true = (st.set b true, [(b, false)]) := by
      simp [arduboy_avr_button_event, hb, hst']
    have hst1 : (st.set b true).getD b false = true :=
      getD_set_self st b true false (by omega)
    have hrest := run_button_events_pressed_suffix b hb n (st.set b true) hst1
    simp [run_button_events, hev, hrest]

/-- Witness for C9: from all-released, pressing button 4 three times then
releasing it produces exactly the two transitions low, high. -/
theorem c9_witness :
    (run_button_events true (List.replicate 6 false)
        (List.replicate 3 (4, true) ++ [(4, false)])).2 = [(4, false), (4, true)] :=
  c9_button_edge_triggered.2.2 (List.replicate 6 false) 4 2 (by decide) (by decide)
    (by decide)

/-- C10: a button event with an id outside the valid range, or with no active
engine, performs no action at all — the stored state of every button is
unchanged and no GPIO line is raised.  (The C reads `buttons[btn_e]` only
behind the `btn_e < BTN_COUNT` test, so no out-of-bounds access occurs.) -/
theorem c10_button_event_guard (hasAvr : Bool) (st : ButtonsPressed) (b : ℕ)
    (pr : Bool) (h : BTN_COUNT ≤ b ∨ hasAvr = false) :
    arduboy_avr_button_event hasAvr st b pr = (st, []) := by
  rcases h with h | h
  · cases hasAvr
    · simp [arduboy_avr_button_event]
    · have hb : ¬ b < BTN_COUNT := by omega
      simp [arduboy_avr_button_event, hb]
  · simp [arduboy_avr_button_event, h]

/-- Witness for C10: button id 6 (one past the last valid id) does nothing. -/
theorem c10_witness :
    arduboy_avr_button_event true (List.replicate 6 false) 6 true =
      (List.replicate 6 false, []) :=
  c10_button_event_guard true (List.replicate 6 false) 6 true (Or.inl (by decide))

/-- C4: the loop returns false exactly when a terminal engine state
(`cpu_Done` or `cpu_Crashed`) is reported before any timer firing ends the
burst; in particular, when the engine is already terminal at the time of the
call — its first `avr_run` outcome reports the terminal state without firing
the frame timer — the loop returns false at once with zero renderer
invocations; and a burst whose first timer firing precedes any terminal
report returns true (the model is a total function: the loop only ever
returns a value, it never aborts). -/
theorem c4_loop_terminal_behaviour :
    (∀ (s : StepOutcome) (rest : List StepOutcome),
      isTerminal s.state = true → s.timerFired = false →
      arduboy_avr_loop true (s :: rest) = some false ∧
        burst_renders (s :: rest) = 0) ∧
    (∀ (pre : List StepOutcome) (s : StepOutcome) (post : List StepOutcome),
      (∀ t ∈ pre, isTerminal t.state = false ∧ t.timerFired = false) →
      isTerminal s.state = false → s.timerFired = true →
      arduboy_avr_loop true (pre ++ s :: post) = some true) ∧
    (∀ steps : List StepOutcome,
      arduboy_avr_loop true steps = some false ↔
        ∃ pre s post, steps = pre ++ s :: post ∧ isTerminal s.state = true ∧
          ∀ t ∈ pre, isTerminal t.state = false ∧ t.timerFired = false) := by
  refine ⟨?_, ?_, ?_⟩
  · intro s rest hterm hfired
    constructor
    · simp [arduboy_avr_loop, run_burst, hterm]
    · simp [burst_renders, hterm, hfired]
  · intro pre s post hclean hterm hfired
    rw [show arduboy_avr_loop true (pre ++ s :: post) =
      run_burst (pre ++ s :: post) from rfl]
    rw [run_burst_skips_clean_steps pre hclean]
    simp [run_burst, hterm, hfired]
  · intro steps
    rw [show arduboy_avr_loop true steps = run_burst steps from rfl]
    exact run_burst_false_iff steps

/-- Witness for C4: a burst whose first step reports `cpu_Crashed` without a
timer firing returns false with zero renderer invocations. -/
theorem c4_witness :
    arduboy_avr_loop true [⟨CpuState.Crashed, false⟩] = some false ∧
    burst_renders [⟨CpuState.Crashed, false⟩] = 0 :=
  c4_loop_terminal_behaviour.1 ⟨CpuState.Crashed, false⟩ [] rfl rfl

end ArduboyAvr
